import Mathlib

/-!
Verification development for the Quick Ride shareholder-management backend
(src/backend/server.js).  The arithmetic of the dividend allocator, the
stage registry, the shareholder lifecycle, the login gate, deletion,
stage upsert and the agreement-document pagination engine are embedded
shallowly.  JavaScript numbers are modelled by exact rationals, together
with a small sum type JNum that also carries the IEEE special values
NaN and the two infinities, which the allocator can hit when it divides
by a zero share total.  Math.round is floor (x + 1/2), which agrees with
JavaScript on every input.
-/

set_option maxRecDepth 8000

/-- Model of JavaScript Math.round: round half towards positive infinity. -/
def jsRound (q : ℚ) : ℤ := ⌊q + 1/2⌋

/-- Model of the idiom Math.round (x * 100) / 100 used throughout the
dividend routes: half-up rounding to 2 decimal places. -/
def round2 (q : ℚ) : ℚ := ((jsRound (q * 100) : ℤ) : ℚ) / 100

/-- JavaScript number values reachable in the dividend loop: an ordinary
(rational) number, NaN, or a signed infinity (the Bool is the sign,
true for positive infinity). -/
inductive JNum where
  | num : ℚ → JNum
  | nan : JNum
  | inf : Bool → JNum
deriving DecidableEq, Repr

/-- Multiplication of a JavaScript number by an ordinary number. -/
def JNum.mulQ (x : JNum) (q : ℚ) : JNum :=
  match x with
  | .num r => .num (r * q)
  | .nan => .nan
  | .inf s => if 0 < q then .inf s else if q < 0 then .inf (!s) else .nan

/-- Division of a JavaScript number by an ordinary number. -/
def JNum.divQ (x : JNum) (q : ℚ) : JNum :=
  match x with
  | .num r =>
      if q = 0 then (if 0 < r then .inf true else if r < 0 then .inf false else .nan)
      else .num (r / q)
  | .nan => .nan
  | .inf s => if 0 < q then .inf s else if q < 0 then .inf (!s) else .nan

/-- Division of two ordinary numbers, which in JavaScript can produce
NaN (0 / 0) or an infinity (x / 0 with x nonzero). -/
def qdivQ (a b : ℚ) : JNum :=
  if b = 0 then (if 0 < a then .inf true else if a < 0 then .inf false else .nan)
  else .num (a / b)

/-- Math.round lifted to JavaScript numbers. -/
def JNum.jround (x : JNum) : JNum :=
  match x with
  | .num q => .num ((jsRound q : ℤ) : ℚ)
  | .nan => .nan
  | .inf s => .inf s

/-- Math.round (x * 100) / 100 lifted to JavaScript numbers. -/
def JNum.round2J (x : JNum) : JNum := ((x.mulQ 100).jround).divQ 100

/-- Subtraction of JavaScript numbers. -/
def JNum.subJ (x y : JNum) : JNum :=
  match x, y with
  | .num a, .num b => .num (a - b)
  | .nan, _ => .nan
  | _, .nan => .nan
  | .num _, .inf s => .inf (!s)
  | .inf s, .num _ => .inf s
  | .inf s, .inf t => if s = t then .nan else .inf s

/-- Model of the JavaScript idiom s || d for strings: the empty string is
falsy, an absent value is falsy. -/
def jsOrStr (o : Option String) (d : String) : String :=
  match o with
  | some s => if s = "" then d else s
  | none => d

/-- Row of the shareholders table. -/
structure Shareholder where
  id : Nat
  full_name : String
  father_name : String
  address : String
  pin_code : String
  phone : String
  email : String
  business_role : String
  num_shares : ℤ
  username : String
  password_hash : String
  photo_data : Option String
  signature_data : Option String
  total_investment : ℚ
  price_per_share : ℚ
  stage : ℤ
  status : String
  created_at : String
  approved_at : Option String
deriving DecidableEq, Repr

/-- Row of the dividend_history table.  The amount column stores the net
amount; gross_amount and amount are JavaScript numbers because the bulk
payout can write NaN into them. -/
structure DividendRecord where
  shareholder_id : Nat
  month : String
  gross_amount : JNum
  gst_rate : ℚ
  amount : JNum
  payment_method : String
  status : String
deriving DecidableEq, Repr

/-- Row of the investment_stages table. -/
structure Stage where
  id : Nat
  stage : ℤ
  name : String
  price_per_share : ℚ
  min_subscribers : ℤ
  max_subscribers : ℤ
  status : String
  shares_available : ℤ
deriving DecidableEq, Repr

/-- Value returned by getRunningStage: either a full row of the stage
table, or the hard-coded fallback object carrying only a stage number, a
price and a name. -/
inductive RunningStage where
  | row : Stage → RunningStage
  | fallback : ℤ → ℚ → String → RunningStage
deriving DecidableEq, Repr

/-- Duck-typed price_per_share access on the result of getRunningStage. -/
def RunningStage.priceField (r : RunningStage) : ℚ :=
  match r with
  | .row s => s.price_per_share
  | .fallback _ p _ => p

/-- Duck-typed stage access on the result of getRunningStage. -/
def RunningStage.stageField (r : RunningStage) : ℤ :=
  match r with
  | .row s => s.stage
  | .fallback n _ _ => n

/-- Helper getRunningStage (server.js lines 129-132 and 734-736): the
first row of SELECT * FROM investment_stages WHERE status = RUNNING, or
the hard-coded fallback object if there is none. -/
def getRunningStage (stages : List Stage) : RunningStage :=
  match (stages.filter (fun s => s.status == "RUNNING")).head? with
  | some s => RunningStage.row s
  | none => RunningStage.fallback 2 1200 ("Current Price")

/-- Price per share used by POST /api/agreements when registering a new
investor (server.js lines 145-147): the running stage price. -/
def registrationPrice (stages : List Stage) : ℚ :=
  (getRunningStage stages).priceField

/-- Result of POST /api/auth/login. -/
inductive LoginResult where
  | badRequest : String → LoginResult
  | declined : String → LoginResult
  | ok : Nat → String → String → String → LoginResult
deriving DecidableEq, Repr

/-- POST /api/auth/login (server.js lines 161-177 and 848-878).  The
bcrypt collaborator is passed in as the function verify, applied to the
submitted password and the stored hash. -/
def login (db : List Shareholder) (verify : String → String → Bool)
    (username password : String) : LoginResult :=
  if username = "" ∨ password = "" then
    .badRequest ("Username and password required")
  else
    match db.find? (fun sh => sh.username == username) with
    | none => .declined ("Invalid credentials.")
    | some row =>
      if ¬ verify password row.password_hash then .declined ("Invalid credentials.")
      else if row.business_role ≠ "ADMIN" ∧ row.status ≠ "APPROVED" then
        .declined ("Account pending approval. Please wait for admin to approve.")
      else
        .ok row.id row.full_name
          (if row.business_role = "ADMIN" then "ADMIN" else "SHAREHOLDER") row.username

/-- Effect of UPDATE shareholders SET status, approved_at WHERE id on one
row (PUT /api/admin/agreements/:id). -/
def updateRow (id : Nat) (status : String) (approvedAt : Option String)
    (sh : Shareholder) : Shareholder :=
  if sh.id = id then { sh with status := status, approved_at := approvedAt } else sh

/-- PUT /api/admin/agreements/:id (server.js lines 267-278 and
1014-1027): approvedAt is the current time when the incoming status is
APPROVED and null otherwise, then status and approved_at of the row with
the given id are overwritten. -/
def updateAgreementStatus (db : List Shareholder) (id : Nat) (status : String)
    (now : String) : List Shareholder :=
  db.map (updateRow id status (if status = "APPROVED" then some now else none))

/-- Result of DELETE /api/admin/agreements/:id. -/
inductive DeleteResult where
  | notFound : String → DeleteResult
  | forbidden : String → DeleteResult
  | ok : String → DeleteResult
deriving DecidableEq, Repr

/-- DELETE /api/admin/agreements/:id (server.js lines 280-294): look the
shareholder up; refuse for the ADMIN role; otherwise delete the dividend
rows of that shareholder first and then the shareholder row. -/
def deleteAgreement (shs : List Shareholder) (divs : List DividendRecord)
    (id : Nat) : DeleteResult × List Shareholder × List DividendRecord :=
  match shs.find? (fun s => s.id == id) with
  | none => (.notFound ("Shareholder not found"), shs, divs)
  | some sh =>
    if sh.business_role = "ADMIN" then
      (.forbidden ("Cannot delete admin account"), shs, divs)
    else
      (.ok ("Agreement for " ++ sh.full_name ++ " deleted"),
       shs.filter (fun s => !(s.id == id)),
       divs.filter (fun d => !(d.shareholder_id == id)))

/-- Result of the stage upsert routes. -/
inductive UpsertResult where
  | invalid : String → UpsertResult
  | ok : String → UpsertResult
deriving DecidableEq, Repr

/-- Body of PUT /api/admin/stages/:id: each mutable field is either
supplied or absent (undefined). -/
structure StagePatch where
  status : Option String
  price_per_share : Option ℚ
  name : Option String
  shares_available : Option ℤ
deriving DecidableEq, Repr

/-- Application of the dynamically built SET list of
PUT /api/admin/stages/:id to one stage row. -/
def applyPatch (u : StagePatch) (st : Stage) : Stage :=
  { st with
    status := u.status.getD st.status,
    price_per_share := u.price_per_share.getD st.price_per_share,
    name := u.name.getD st.name,
    shares_available := u.shares_available.getD st.shares_available }

/-- PUT /api/admin/stages/:id (server.js lines 330-345): reject an empty
update payload, otherwise update exactly the supplied fields of the row
with the given id. -/
def updateStage (stages : List Stage) (id : Nat) (u : StagePatch) :
    UpsertResult × List Stage :=
  if u.status = none ∧ u.price_per_share = none ∧ u.name = none ∧
      u.shares_available = none then
    (.invalid ("Nothing to update"), stages)
  else
    (.ok ("Stage updated"),
     stages.map (fun st => if st.id = id then applyPatch u st else st))

/-- Body of POST /api/admin/stages; absent fields are none. -/
structure StageCreate where
  stage : Option ℤ
  name : Option String
  price_per_share : Option ℚ
  min_subscribers : Option ℤ
  max_subscribers : Option ℤ
  status : Option String
  shares_available : Option ℤ
deriving DecidableEq, Repr

/-- JavaScript truthiness of an optional number: absent, 0 (and NaN) are
falsy. -/
def jsTruthyNum (o : Option ℤ) : Bool :=
  match o with
  | none => false
  | some q => q != 0

/-- JavaScript truthiness of an optional rational number. -/
def jsTruthyRat (o : Option ℚ) : Bool :=
  match o with
  | none => false
  | some q => q != 0

/-- JavaScript truthiness of an optional string: absent and empty are
falsy. -/
def jsTruthyStr (o : Option String) : Bool :=
  match o with
  | none => false
  | some s => s != ""

/-- POST /api/admin/stages (server.js lines 347-359): reject unless
stage, name and price_per_share are all truthy, otherwise insert a row
with defaults for the optional columns. -/
def createStage (stages : List Stage) (nextId : Nat) (inp : StageCreate) :
    UpsertResult × List Stage :=
  if ¬ (jsTruthyNum inp.stage ∧ jsTruthyStr inp.name ∧ jsTruthyRat inp.price_per_share) then
    (.invalid ("stage, name, price_per_share required"), stages)
  else
    (.ok ("Stage added"),
     stages ++ [{ id := nextId,
                  stage := inp.stage.getD 0,
                  name := inp.name.getD "",
                  price_per_share := inp.price_per_share.getD 0,
                  min_subscribers := inp.min_subscribers.getD 0,
                  max_subscribers := inp.max_subscribers.getD 0,
                  status := jsOrStr inp.status ("UPCOMING"),
                  shares_available := inp.shares_available.getD 0 }])

/-- Result of POST /api/admin/dividends (single payout): a decline with a
message, or success returning net, gross and gstAmt. -/
inductive PayOneResult where
  | decline : String → PayOneResult
  | ok : ℚ → ℚ → ℚ → PayOneResult
deriving DecidableEq, Repr

/-- POST /api/admin/dividends (server.js lines 502-523): pay a single
shareholder.  Preconditions are checked first (truthy shareholderId,
truthy month, amount strictly positive, target exists with status
APPROVED); the gst rate is clamped to max 0; gstAmt and net are rounded
half-up to 2 decimals; one dividend row is inserted.  The function also
returns the list of inserted rows. -/
def payOne (db : List Shareholder) (shareholderId : Nat) (month : String)
    (amount : ℚ) (gstRate : ℚ) (paymentMethod : Option String) :
    PayOneResult × List DividendRecord :=
  if shareholderId = 0 ∨ month = "" ∨ amount ≤ 0 then
    (.decline ("shareholderId, month, and amount are required"), [])
  else
    match db.find? (fun sh => sh.id == shareholderId && sh.status == "APPROVED") with
    | none => (.decline ("Shareholder not found or not approved"), [])
    | some _ =>
      let gst := max 0 gstRate
      let gross := amount
      let gstAmt := round2 (gross * gst / 100)
      let net := round2 (gross - gstAmt)
      (.ok net gross gstAmt,
       [{ shareholder_id := shareholderId, month := month,
          gross_amount := .num gross, gst_rate := gst, amount := .num net,
          payment_method := jsOrStr paymentMethod ("Bank Transfer"),
          status := "PAID" }])

/-- Result of POST /api/admin/dividends/all: a decline with a message, or
success returning the count of shareholders paid. -/
inductive PayAllResult where
  | decline : String → PayAllResult
  | ok : Nat → PayAllResult
deriving DecidableEq, Repr

/-- Share total computed by the bulk payout with
reduce ((s, sh) => s + (sh.num_shares || 0), 0). -/
def totalSharesOf (l : List Shareholder) : ℤ :=
  l.foldl (fun s sh => s + sh.num_shares) 0

/-- Body of the bulk payout loop (server.js lines 538-547) for one
approved shareholder: the share ratio, gross, gstAmt and net are
JavaScript numbers, and one dividend row is built from them. -/
def payAllRecord (month pm : String) (totalGross gst : ℚ) (totalShares : ℤ)
    (sh : Shareholder) : DividendRecord :=
  let r := (qdivQ (sh.num_shares : ℚ) (totalShares : ℚ)).mulQ totalGross
  let gross := r.round2J
  let gstAmt := ((gross.mulQ gst).divQ 100).round2J
  let net := (gross.subJ gstAmt).round2J
  { shareholder_id := sh.id, month := month, gross_amount := gross,
    gst_rate := gst, amount := net, payment_method := pm, status := "PAID" }

/-- POST /api/admin/dividends/all (server.js lines 526-553): pay every
shareholder whose status is APPROVED proportionally to num_shares.  The
function returns the route result together with the list of inserted
dividend rows. -/
def payAll (db : List Shareholder) (month : String) (amount : ℚ) (gstRate : ℚ)
    (paymentMethod : Option String) : PayAllResult × List DividendRecord :=
  if month = "" ∨ amount ≤ 0 then
    (.decline ("month and amount are required"), [])
  else
    let shareholders := db.filter (fun sh => sh.status == "APPROVED")
    if shareholders.isEmpty then (.decline ("No approved shareholders found"), [])
    else
      (.ok shareholders.length,
       shareholders.map
         (payAllRecord month (jsOrStr paymentMethod ("Bank Transfer")) amount
           (max 0 gstRate) (totalSharesOf shareholders)))

/-- Header height of the agreement document (server.js line 394). -/
def HEADER_H : ℤ := 72

/-- Footer height of the agreement document. -/
def FOOTER_H : ℤ := 22

/-- Page height of an A4 page in points (server.js comment, line 1070). -/
def pageH : ℤ := 842

/-- Top-of-body offset: HEADER_H + 8. -/
def BODY_TOP : ℤ := HEADER_H + 8

/-- Bottom-of-body limit: pageH - FOOTER_H - 8. -/
def BODY_BOT : ℤ := pageH - FOOTER_H - 8

/-- Observable drawing events of the renderer: a header drawn on a
physical page, or a footer drawn on a physical page showing a page
number. -/
inductive Ev where
  | header : Nat → Ev
  | footer : Nat → Nat → Ev
deriving DecidableEq, Repr

/-- Renderer state: the vertical cursor cy, the pageNum counter variable,
the physical page the drawing surface is on, and the log of header and
footer drawing events. -/
structure RSt where
  cy : ℤ
  pageNum : Nat
  page : Nat
  log : List Ev
deriving DecidableEq, Repr

/-- The drawHeader helper: draws a header on the current page. -/
def drawHeaderOp (s : RSt) : RSt := { s with log := s.log ++ [Ev.header s.page] }

/-- The drawFooter helper: draws a footer carrying the current pageNum on
the current page. -/
def drawFooterOp (s : RSt) : RSt :=
  { s with log := s.log ++ [Ev.footer s.page s.pageNum] }

/-- The newPage helper (server.js line 411 and 1106-1113): flush the
footer, add a page, increment pageNum, redraw header and footer, reset
the cursor to the top-of-body offset. -/
def newPage (s : RSt) : RSt :=
  let s1 := drawFooterOp s
  let s2 := { s1 with page := s1.page + 1, pageNum := s1.pageNum + 1 }
  let s3 := drawFooterOp (drawHeaderOp s2)
  { s3 with cy := BODY_TOP }

/-- The ensureSpace helper (server.js line 412 and 1115-1117): start a
new page when the needed height does not fit above the body-bottom
limit. -/
def ensureSpace (needed : ℤ) (s : RSt) : RSt :=
  if BODY_BOT < s.cy + needed then newPage s else s

/-- One abstract drawing step of the agreement renderer: a direct header
or footer draw, a raw cursor advance, or a measured block that calls
ensureSpace with an estimated height and then advances the cursor. -/
inductive Step where
  | hdr : Step
  | ftr : Step
  | raw : ℤ → Step
  | blk : ℤ → ℤ → Step
deriving DecidableEq, Repr

/-- Execution of one step. -/
def runStep (s : RSt) : Step → RSt
  | .hdr => drawHeaderOp s
  | .ftr => drawFooterOp s
  | .raw a => { s with cy := s.cy + a }
  | .blk n a =>
    let t := ensureSpace n s
    { t with cy := t.cy + a }

/-- Execution of a list of steps. -/
def runSteps (steps : List Step) (s : RSt) : RSt := steps.foldl runStep s

/-- Height of one two-column field row (server.js lines 417-425): the
value string defaults to an em dash when falsy, the extra line count is
estimated as ceil (length / 55), each extra line adds 11 points. -/
def fieldH (v : String) : ℤ :=
  let len := (if v = "" then "—" else v).length
  let extraLines : ℤ := ((len + 54) / 55 : ℕ)
  17 + (if 1 < extraLines then (extraLines - 1) * 11 else 0)

/-- Step of one field row: ensureSpace with the estimated height, then
advance by the same height. -/
def fieldStep (v : String) : Step := .blk (fieldH v) (fieldH v)

/-- Step of one section bar (server.js line 413): ensureSpace 22, then
advance by 24. -/
def sectionStep : Step := .blk 22 24

/-- Estimated height of a term block (server.js lines 426-434):
bodyLines = ceil (length / 90) + 1 and totalH = 16 + bodyLines * 11 + 10. -/
def termH (len : ℕ) : ℤ := 16 + (((len + 89) / 90 + 1 : ℕ) : ℤ) * 11 + 10

/-- Step of one term block: ensureSpace with the estimate, then advance
by the title height 16, the height the drawing surface consumed for the
body text (the parameter flowH applied to the body length) and 5. -/
def termStep (flowH : ℕ → ℤ) (len : ℕ) : Step := .blk (termH len) (16 + flowH len + 5)

/-- Character counts of the seven fixed legal term bodies of section 3 of
the agreement document (server.js lines 456-462). -/
def termLens : List ℕ := [456, 471, 473, 542, 718, 641, 463]

/-- Character count of the investor declaration paragraph
(server.js line 465). -/
def declLen : ℕ := 890

/-- Field values of the personal-information section, in source order:
full name, father name, address, pin code, phone, email
(server.js lines 448-449). -/
def personalFieldValues (s : Shareholder) : List String :=
  [s.full_name, s.father_name, s.address, s.pin_code, s.phone, s.email]

/-- Step list of the whole agreement document (server.js lines 436-493)
for a shareholder without an approved_at row: initial header and footer,
meta strip (+32), photo block (+108 with a photo, +6 without), the
personal-information section, the investment-details section (whose
formatted field values are passed in), the seven term blocks, the
declaration, the notice bar, the signature area and the office line,
and the final footer flush.  flowH models the height the external
drawing surface consumes for a flowed paragraph of the given length. -/
def agreementSteps (personal invVals : List String) (hasPhoto : Bool)
    (flowH : ℕ → ℤ) : List Step :=
  [Step.hdr, Step.ftr, Step.raw 32, Step.raw (if hasPhoto then 108 else 6),
   sectionStep]
  ++ personal.map fieldStep
  ++ [sectionStep] ++ invVals.map fieldStep
  ++ [sectionStep, Step.raw 4]
  ++ termLens.map (termStep flowH)
  ++ [sectionStep, Step.raw 4, Step.blk 52 (flowH declLen + 8), Step.blk 22 26,
      Step.blk 110 0, sectionStep, Step.raw 6, Step.raw 100, Step.blk 16 14,
      Step.ftr]

/-- Initial renderer state: cursor at the top-of-body offset, pageNum 1,
on physical page 1, nothing drawn yet. -/
def initSt : RSt := { cy := BODY_TOP, pageNum := 1, page := 1, log := [] }

/-- Full run of the agreement renderer. -/
def agreementRender (personal invVals : List String) (hasPhoto : Bool)
    (flowH : ℕ → ℤ) : RSt :=
  runSteps (agreementSteps personal invVals hasPhoto flowH) initSt

/-- Modelled from the spec: the external page-drawing collaborator (the
document surface that flows justified paragraphs) is not part of
src/backend/server.js; the spec describes text height as line count
estimated from character length divided by a characters-per-line
constant.  This model charges ceil (length / 90) lines of 11 points,
the same constants the source uses for its own estimates. -/
def stdFlowH (len : ℕ) : ℤ := (((len + 89) / 90 : ℕ) : ℤ) * 11

/-- Invariant of the renderer state: the pageNum variable equals the
physical page, every footer drawn shows the number of the page it is on,
and every page after the first that has been reached has a header and a
correctly numbered footer. -/
def GoodSt (s : RSt) : Prop :=
  s.pageNum = s.page ∧ 1 ≤ s.page ∧
  (∀ p n, Ev.footer p n ∈ s.log → n = p) ∧
  (∀ p, 2 ≤ p → p ≤ s.page → Ev.header p ∈ s.log ∧ Ev.footer p p ∈ s.log)

/-- Concrete shareholder used by the witnesses. -/
def baseSh : Shareholder :=
  { id := 1, full_name := "Test Person", father_name := "",
    address := "Helipad Gangtok", pin_code := "737101", phone := "9932369890",
    email := "t1@example.com", business_role := "DRIVER", num_shares := 100,
    username := "investor1", password_hash := "h1", photo_data := none,
    signature_data := none, total_investment := 120000, price_per_share := 1200,
    stage := 2, status := "APPROVED", created_at := "2026-01-01T00:00:00Z",
    approved_at := none }

/-- Three approved shareholders holding 1, 3 and 6 shares. -/
def dbShares136 : List Shareholder :=
  [{ baseSh with id := 1, num_shares := 1, username := "u1", email := "u1@x.com" },
   { baseSh with id := 2, num_shares := 3, username := "u2", email := "u2@x.com" },
   { baseSh with id := 3, num_shares := 6, username := "u3", email := "u3@x.com" }]

/-- Three approved shareholders holding one share each. -/
def dbShares111 : List Shareholder :=
  [{ baseSh with id := 1, num_shares := 1, username := "u1", email := "u1@x.com" },
   { baseSh with id := 2, num_shares := 1, username := "u2", email := "u2@x.com" },
   { baseSh with id := 3, num_shares := 1, username := "u3", email := "u3@x.com" }]

/-- One approved shareholder holding zero shares (the seeded ADMIN row of
a fresh database is exactly such a row). -/
def dbZeroShares : List Shareholder :=
  [{ baseSh with id := 7, num_shares := 0, username := "u7", email := "u7@x.com" }]

/-- An ADMIN-role shareholder whose status is not APPROVED. -/
def adminPending : Shareholder :=
  { baseSh with
      id := 9, business_role := "ADMIN", status := "PENDING",
      username := "admin", full_name := "Administrator", email := "a@x.com" }

/-- A non-admin shareholder whose status is PENDING. -/
def pendingUser : Shareholder :=
  { baseSh with id := 8, status := "PENDING", username := "u8", email := "u8@x.com" }

/-- A stage list with a single RUNNING stage. -/
def runningStageRow : Stage :=
  { id := 2, stage := 2, name := "Current Price", price_per_share := 1200,
    min_subscribers := 1501, max_subscribers := 5000, status := "RUNNING",
    shares_available := 100 }

/-- The seeded stage table. -/
def seededStages : List Stage :=
  [{ id := 1, stage := 1, name := "Base Price", price_per_share := 1000,
     min_subscribers := 0, max_subscribers := 1500, status := "SOLD_OUT",
     shares_available := 0 },
   runningStageRow,
   { id := 3, stage := 3, name := "Next Price", price_per_share := 1440,
     min_subscribers := 5001, max_subscribers := 15000, status := "UPCOMING",
     shares_available := 100 }]

/-- The seeded stage table with no RUNNING stage (stage 2 set SOLD_OUT). -/
def noRunningStages : List Stage :=
  seededStages.map (fun s => if s.id = 2 then { s with status := "SOLD_OUT" } else s)

/-- A 300-character residential address. -/
def addr300 : String := String.mk (List.replicate 300 'a')

/-- The concrete shareholder with a very long address. -/
def sh300 : Shareholder := { baseSh with address := addr300 }

/-- Formatted field values of the investment-details section for baseSh,
as the locale-formatting collaborator renders them (100 shares at
Rs. 1200 in stage 2). -/
def invVals6 : List String :=
  ["100", "Rs. 1,200", "Rs. 1,20,000", "Stage 2 — Current Price",
   "10.000% of total 1,000 shares", "investor1"]

/-- A concrete dividend row owned by shareholder 1. -/
def divA : DividendRecord :=
  { shareholder_id := 1, month := "May", gross_amount := JNum.num 10,
    gst_rate := 0, amount := JNum.num 10, payment_method := "Bank Transfer",
    status := "PAID" }

/-- A concrete dividend row owned by shareholder 8. -/
def divB : DividendRecord := { divA with shareholder_id := 8 }
/-- Floor characterization specialized to jsRound, used to evaluate
concrete roundings. -/
theorem jsRound_eq_of (q : ℚ) (z : ℤ) (h1 : (z : ℚ) ≤ q + 1/2) (h2 : q + 1/2 < z + 1) :
    jsRound q = z := by
  unfold jsRound
  exact Int.floor_eq_iff.mpr ⟨h1, h2⟩

/-- jsRound fixes integers. -/
theorem jsRound_intCast (k : ℤ) : jsRound (k : ℚ) = k := by
  unfold jsRound
  rw [Int.floor_int_add]
  norm_num

/-- Half-up rounding to 2 decimals fixes whole numbers of cents. -/
theorem round2_cents (k : ℤ) : round2 ((k : ℚ) / 100) = (k : ℚ) / 100 := by
  unfold round2
  rw [div_mul_cancel₀ (b := (100 : ℚ)) (a := (k : ℚ)) (by norm_num), jsRound_intCast]

/-- Half-up rounding moves a value by at most half a cent. -/
theorem abs_round2_sub (q : ℚ) : |round2 q - q| ≤ 1/200 := by
  unfold round2 jsRound
  rw [abs_le]
  constructor
  · have h := Int.lt_floor_add_one (q * 100 + 1/2)
    have : q * 100 - 1/2 < ((⌊q * 100 + 1/2⌋ : ℤ) : ℚ) := by
      push_cast at h ⊢
      linarith
    nlinarith [this]
  · have h := Int.floor_le (q * 100 + 1/2)
    nlinarith [h]
/-- The foldl share total is the list sum of num_shares. -/
theorem totalSharesOf_eq_sum (l : List Shareholder) :
    totalSharesOf l = (l.map (fun sh => sh.num_shares)).sum := by
  unfold totalSharesOf
  suffices h : ∀ a : ℤ, l.foldl (fun s sh => s + sh.num_shares) a =
      a + (l.map (fun sh => sh.num_shares)).sum by
    simpa using h 0
  induction l with
  | nil => intro a; simp
  | cons x xs ih =>
    intro a
    simp only [List.foldl_cons, List.map_cons, List.sum_cons, ih]
    ring

/-- Summed independent roundings drift from the exact sum by at most half
a cent per element. -/
theorem round2_sum_drift (l : List ℚ) :
    |(l.map round2).sum - l.sum| ≤ (l.length : ℚ) * (1/200) := by
  induction l with
  | nil => simp
  | cons x xs ih =>
    simp only [List.map_cons, List.sum_cons, List.length_cons]
    have hx := abs_round2_sub x
    calc |round2 x + (xs.map round2).sum - (x + xs.sum)|
        = |(round2 x - x) + ((xs.map round2).sum - xs.sum)| := by ring_nf
      _ ≤ |round2 x - x| + |(xs.map round2).sum - xs.sum| := abs_add _ _
      _ ≤ 1/200 + (xs.length : ℚ) * (1/200) := by linarith
      _ = ((xs.length : ℚ) + 1) * (1/200) := by ring
      _ = ((xs.length + 1 : ℕ) : ℚ) * (1/200) := by push_cast; ring
/-- Multiplication acts componentwise on ordinary numbers. -/
@[simp] theorem JNum.mulQ_num (r q : ℚ) : (JNum.num r).mulQ q = JNum.num (r * q) := rfl

/-- Division by a nonzero ordinary number acts componentwise. -/
theorem JNum.divQ_num (r q : ℚ) (h : q ≠ 0) :
    (JNum.num r).divQ q = JNum.num (r / q) := by
  simp [JNum.divQ, h]

/-- Math.round acts componentwise on ordinary numbers. -/
@[simp] theorem JNum.jround_num (q : ℚ) :
    (JNum.num q).jround = JNum.num ((jsRound q : ℤ) : ℚ) := rfl

/-- Two-decimal rounding acts componentwise on ordinary numbers. -/
@[simp] theorem JNum.round2J_num (q : ℚ) :
    (JNum.num q).round2J = JNum.num (round2 q) := by
  unfold JNum.round2J round2
  rw [JNum.mulQ_num, JNum.jround_num, JNum.divQ_num _ _ (by norm_num)]

/-- Subtraction acts componentwise on ordinary numbers. -/
@[simp] theorem JNum.subJ_num (a b : ℚ) :
    (JNum.num a).subJ (JNum.num b) = JNum.num (a - b) := rfl

/-- Propagation of NaN through the bulk-payout arithmetic. -/
@[simp] theorem JNum.mulQ_nan (q : ℚ) : JNum.nan.mulQ q = JNum.nan := rfl

/-- Propagation of NaN through division. -/
@[simp] theorem JNum.divQ_nan (q : ℚ) : JNum.nan.divQ q = JNum.nan := rfl

/-- Propagation of NaN through Math.round. -/
@[simp] theorem JNum.jround_nan : JNum.nan.jround = JNum.nan := rfl

/-- Propagation of NaN through two-decimal rounding. -/
@[simp] theorem JNum.round2J_nan : JNum.nan.round2J = JNum.nan := rfl

/-- Propagation of NaN through subtraction. -/
@[simp] theorem JNum.subJ_nan_left (y : JNum) : JNum.nan.subJ y = JNum.nan := by
  cases y <;> rfl

/-- Zero divided by zero is NaN, as in JavaScript. -/
theorem qdivQ_zero_zero : qdivQ 0 0 = JNum.nan := by
  unfold qdivQ
  norm_num

/-- Division by a nonzero denominator is an ordinary number. -/
theorem qdivQ_num (a b : ℚ) (h : b ≠ 0) : qdivQ a b = JNum.num (a / b) := by
  unfold qdivQ
  rw [if_neg h]

/-- Unfolding of the bulk payout on the success path. -/
theorem payAll_eq (db : List Shareholder) (month : String) (amount gstRate : ℚ)
    (pm : Option String) (hm : month ≠ "") (ha : 0 < amount)
    (hne : db.filter (fun sh => sh.status == "APPROVED") ≠ []) :
    payAll db month amount gstRate pm =
      (PayAllResult.ok (db.filter (fun sh => sh.status == "APPROVED")).length,
       (db.filter (fun sh => sh.status == "APPROVED")).map
         (payAllRecord month (jsOrStr pm ("Bank Transfer")) amount (max 0 gstRate)
           (totalSharesOf (db.filter (fun sh => sh.status == "APPROVED"))))) := by
  unfold payAll
  rw [if_neg, if_neg]
  · simpa using hne
  · push_neg
    exact ⟨hm, ha⟩

/-- On a nonzero share total the gross of one bulk-payout row is the
independently rounded proportional amount. -/
theorem payAllRecord_gross (month pm : String) (totalGross gst : ℚ)
    (totalShares : ℤ) (sh : Shareholder) (hS : totalShares ≠ 0) :
    (payAllRecord month pm totalGross gst totalShares sh).gross_amount =
      JNum.num (round2 ((sh.num_shares : ℚ) / (totalShares : ℚ) * totalGross)) := by
  have hSq : ((totalShares : ℤ) : ℚ) ≠ 0 := Int.cast_ne_zero.mpr hS
  unfold payAllRecord
  rw [qdivQ_num _ _ hSq]
  simp

/-- On a nonzero share total the net of one bulk-payout row follows the
rounded gross, gstAmt, net chain of the source loop. -/
theorem payAllRecord_amount (month pm : String) (totalGross gst : ℚ)
    (totalShares : ℤ) (sh : Shareholder) (hS : totalShares ≠ 0) :
    (payAllRecord month pm totalGross gst totalShares sh).amount =
      JNum.num (round2
        (round2 ((sh.num_shares : ℚ) / (totalShares : ℚ) * totalGross) -
         round2 (round2 ((sh.num_shares : ℚ) / (totalShares : ℚ) * totalGross) *
           gst / 100))) := by
  have hSq : ((totalShares : ℤ) : ℚ) ≠ 0 := Int.cast_ne_zero.mpr hS
  unfold payAllRecord
  rw [qdivQ_num _ _ hSq]
  simp only [JNum.mulQ_num, JNum.round2J_num, JNum.divQ_num _ _ (show (100:ℚ) ≠ 0 by norm_num),
    JNum.subJ_num]

/-- Fixed components of one bulk-payout row. -/
theorem payAllRecord_fixed (month pm : String) (totalGross gst : ℚ)
    (totalShares : ℤ) (sh : Shareholder) :
    (payAllRecord month pm totalGross gst totalShares sh).shareholder_id = sh.id ∧
    (payAllRecord month pm totalGross gst totalShares sh).month = month ∧
    (payAllRecord month pm totalGross gst totalShares sh).gst_rate = gst ∧
    (payAllRecord month pm totalGross gst totalShares sh).payment_method = pm ∧
    (payAllRecord month pm totalGross gst totalShares sh).status = "PAID" := by
  unfold payAllRecord
  exact ⟨rfl, rfl, rfl, rfl, rfl⟩
/-- Proportional numerators scale linearly when summed. -/
theorem sum_ratio_mul (l : List Shareholder) (S T : ℚ) :
    (l.map (fun sh => (sh.num_shares : ℚ) / S * T)).sum =
      (((l.map (fun sh => sh.num_shares)).sum : ℤ) : ℚ) / S * T := by
  induction l with
  | nil => simp
  | cons x xs ih =>
    simp only [List.map_cons, List.sum_cons, ih]
    push_cast
    ring

/-- A positive share total forces a nonempty approved list. -/
theorem approved_ne_nil_of_pos (l : List Shareholder) (h : 0 < totalSharesOf l) :
    l ≠ [] := by
  intro hnil
  rw [hnil] at h
  simp [totalSharesOf] at h

/-- C1 (amended): with a positive gross pool, a nonempty month and a
positive approved share total, the bulk payout sums num_shares over the
APPROVED shareholders, pays each of them the independently rounded
proportional gross with gst and net derived by half-up 2-decimal
rounding, appends one PAID dividend row per approved shareholder all
carrying the same month, and returns the count paid. -/
theorem payAll_proportional_correct
    (db : List Shareholder) (month : String) (amount gstRate : ℚ)
    (pm : Option String) (hm : month ≠ "") (ha : 0 < amount)
    (hS : 0 < totalSharesOf (db.filter (fun sh => sh.status == "APPROVED"))) :
    totalSharesOf (db.filter (fun sh => sh.status == "APPROVED")) =
      ((db.filter (fun sh => sh.status == "APPROVED")).map
        (fun sh => sh.num_shares)).sum ∧
    (payAll db month amount gstRate pm).1 =
      PayAllResult.ok (db.filter (fun sh => sh.status == "APPROVED")).length ∧
    (payAll db month amount gstRate pm).2.length =
      (db.filter (fun sh => sh.status == "APPROVED")).length ∧
    (payAll db month amount gstRate pm).2.map (fun r => r.gross_amount) =
      (db.filter (fun sh => sh.status == "APPROVED")).map (fun sh =>
        JNum.num (round2 (amount * (sh.num_shares : ℚ) /
          ((totalSharesOf (db.filter (fun sh => sh.status == "APPROVED")) : ℤ) : ℚ)))) ∧
    (payAll db month amount gstRate pm).2.map (fun r => r.amount) =
      (db.filter (fun sh => sh.status == "APPROVED")).map (fun sh =>
        JNum.num (round2
          (round2 (amount * (sh.num_shares : ℚ) /
             ((totalSharesOf (db.filter (fun sh => sh.status == "APPROVED")) : ℤ) : ℚ)) -
           round2 (round2 (amount * (sh.num_shares : ℚ) /
             ((totalSharesOf (db.filter (fun sh => sh.status == "APPROVED")) : ℤ) : ℚ)) *
             max 0 gstRate / 100)))) ∧
    (payAll db month amount gstRate pm).2.map (fun r => r.shareholder_id) =
      (db.filter (fun sh => sh.status == "APPROVED")).map (fun sh => sh.id) ∧
    (∀ r ∈ (payAll db month amount gstRate pm).2,
      r.month = month ∧ r.gst_rate = max 0 gstRate ∧ r.status = "PAID") := by
  have hS0 : totalSharesOf (db.filter (fun sh => sh.status == "APPROVED")) ≠ 0 :=
    ne_of_gt hS
  have hne := approved_ne_nil_of_pos _ hS
  have hpa := payAll_eq db month amount gstRate pm hm ha hne
  have hgr : ∀ sh : Shareholder,
      (sh.num_shares : ℚ) /
        ((totalSharesOf (db.filter (fun s => s.status == "APPROVED")) : ℤ) : ℚ) * amount =
      amount * (sh.num_shares : ℚ) /
        ((totalSharesOf (db.filter (fun s => s.status == "APPROVED")) : ℤ) : ℚ) := by
    intro sh
    ring
  refine ⟨totalSharesOf_eq_sum _, ?_, ?_, ?_, ?_, ?_, ?_⟩
  · rw [hpa]
  · rw [hpa]
    simp
  · rw [hpa]
    simp only [List.map_map]
    refine List.map_congr_left ?_
    intro sh _
    simp only [Function.comp_apply]
    rw [payAllRecord_gross _ _ _ _ _ _ hS0, hgr]
  · rw [hpa]
    simp only [List.map_map]
    refine List.map_congr_left ?_
    intro sh _
    simp only [Function.comp_apply]
    rw [payAllRecord_amount _ _ _ _ _ _ hS0, hgr]
  · rw [hpa]
    simp only [List.map_map]
    refine List.map_congr_left ?_
    intro sh _
    simp only [Function.comp_apply]
    exact (payAllRecord_fixed _ _ _ _ _ _).1
  · rw [hpa]
    intro r hr
    simp only [List.mem_map] at hr
    obtain ⟨sh, _, rfl⟩ := hr
    obtain ⟨-, h2, h3, -, h5⟩ := payAllRecord_fixed month
      (jsOrStr pm ("Bank Transfer")) amount (max 0 gstRate)
      (totalSharesOf (db.filter (fun s => s.status == "APPROVED"))) sh
    exact ⟨h2, h3, h5⟩
/-- C2: with a positive approved share total, the independently rounded
per-shareholder grosses of the bulk payout sum to within plus or minus
0.01 times the shareholder count of the gross pool. -/
theorem payAll_drift_bound
    (db : List Shareholder) (month : String) (amount gstRate : ℚ)
    (pm : Option String) (hm : month ≠ "") (ha : 0 < amount)
    (hS : 0 < totalSharesOf (db.filter (fun sh => sh.status == "APPROVED"))) :
    ∃ g : List ℚ,
      (payAll db month amount gstRate pm).2.map (fun r => r.gross_amount) =
        g.map JNum.num ∧
      |g.sum - amount| ≤
        (((db.filter (fun sh => sh.status == "APPROVED")).length : ℚ)) * (1/100) := by
  have hS0 : totalSharesOf (db.filter (fun sh => sh.status == "APPROVED")) ≠ 0 :=
    ne_of_gt hS
  have hSq : ((totalSharesOf (db.filter (fun sh => sh.status == "APPROVED")) : ℤ) : ℚ) ≠ 0 :=
    Int.cast_ne_zero.mpr hS0
  have hne := approved_ne_nil_of_pos _ hS
  have hpa := payAll_eq db month amount gstRate pm hm ha hne
  refine ⟨(db.filter (fun sh => sh.status == "APPROVED")).map (fun sh =>
    round2 ((sh.num_shares : ℚ) /
      ((totalSharesOf (db.filter (fun s => s.status == "APPROVED")) : ℤ) : ℚ) * amount)),
    ?_, ?_⟩
  · rw [hpa]
    simp only [List.map_map]
    refine List.map_congr_left ?_
    intro sh _
    simp only [Function.comp_apply]
    rw [payAllRecord_gross _ _ _ _ _ _ hS0]
  · have hmm : (db.filter (fun sh => sh.status == "APPROVED")).map (fun sh =>
        round2 ((sh.num_shares : ℚ) /
          ((totalSharesOf (db.filter (fun s => s.status == "APPROVED")) : ℤ) : ℚ) * amount)) =
        ((db.filter (fun sh => sh.status == "APPROVED")).map (fun sh =>
          (sh.num_shares : ℚ) /
            ((totalSharesOf (db.filter (fun s => s.status == "APPROVED")) : ℤ) : ℚ) *
            amount)).map round2 := by
      rw [List.map_map]
      rfl
    rw [hmm]
    have hsum : ((db.filter (fun sh => sh.status == "APPROVED")).map (fun sh =>
        (sh.num_shares : ℚ) /
          ((totalSharesOf (db.filter (fun s => s.status == "APPROVED")) : ℤ) : ℚ) *
          amount)).sum = amount := by
      rw [sum_ratio_mul, ← totalSharesOf_eq_sum, div_self hSq, one_mul]
    have hdrift := round2_sum_drift ((db.filter (fun sh => sh.status == "APPROVED")).map
      (fun sh => (sh.num_shares : ℚ) /
        ((totalSharesOf (db.filter (fun s => s.status == "APPROVED")) : ℤ) : ℚ) * amount))
    rw [hsum, List.length_map] at hdrift
    have hlen : (0 : ℚ) ≤ ((db.filter (fun sh => sh.status == "APPROVED")).length : ℚ) := by
      positivity
    nlinarith [hdrift, hlen]

/-- On a zero share total a zero-share row yields NaN gross and net. -/
theorem payAllRecord_zeroShares (month pm : String) (totalGross gst : ℚ)
    (sh : Shareholder) (h : sh.num_shares = 0) :
    (payAllRecord month pm totalGross gst 0 sh).gross_amount = JNum.nan ∧
    (payAllRecord month pm totalGross gst 0 sh).amount = JNum.nan := by
  unfold payAllRecord
  rw [h]
  simp [Int.cast_zero, qdivQ_zero_zero, JNum.mulQ_nan, JNum.round2J_nan,
    JNum.divQ_nan, JNum.subJ_nan_left]

/-- C10: when every APPROVED shareholder holds zero shares, the share
total is zero, each per-shareholder ratio is the JavaScript division
0 / 0 (NaN), yet the bulk payout still inserts one PAID dividend row per
approved shareholder with NaN gross and net amounts and reports success
with the full count. -/
theorem payAll_zero_totalShares_nan
    (db : List Shareholder) (month : String) (amount gstRate : ℚ)
    (pm : Option String) (hm : month ≠ "") (ha : 0 < amount)
    (hne : db.filter (fun sh => sh.status == "APPROVED") ≠ [])
    (h0 : ∀ sh ∈ db.filter (fun sh => sh.status == "APPROVED"), sh.num_shares = 0) :
    totalSharesOf (db.filter (fun sh => sh.status == "APPROVED")) = 0 ∧
    (payAll db month amount gstRate pm).1 =
      PayAllResult.ok (db.filter (fun sh => sh.status == "APPROVED")).length ∧
    (payAll db month amount gstRate pm).2.length =
      (db.filter (fun sh => sh.status == "APPROVED")).length ∧
    ∀ r ∈ (payAll db month amount gstRate pm).2,
      r.gross_amount = JNum.nan ∧ r.amount = JNum.nan ∧ r.month = month ∧
      r.status = "PAID" := by
  have ht : totalSharesOf (db.filter (fun sh => sh.status == "APPROVED")) = 0 := by
    rw [totalSharesOf_eq_sum]
    refine List.sum_eq_zero ?_
    intro x hx
    simp only [List.mem_map] at hx
    obtain ⟨sh, hsh, rfl⟩ := hx
    exact h0 sh hsh
  have hpa := payAll_eq db month amount gstRate pm hm ha hne
  refine ⟨ht, ?_, ?_, ?_⟩
  · rw [hpa]
  · rw [hpa]
    simp
  · rw [hpa]
    intro r hr
    simp only [List.mem_map] at hr
    obtain ⟨sh, hsh, rfl⟩ := hr
    rw [ht]
    obtain ⟨hg, hn⟩ := payAllRecord_zeroShares month (jsOrStr pm ("Bank Transfer"))
      amount (max 0 gstRate) sh (h0 sh hsh)
    obtain ⟨-, h2, -, -, h5⟩ := payAllRecord_fixed month (jsOrStr pm ("Bank Transfer"))
      amount (max 0 gstRate) 0 sh
    exact ⟨hg, hn, h2, h5⟩
/-- Counterexample to C1 as stated: with one APPROVED shareholder holding
zero shares and a positive pool, the code reports success but the
inserted gross is NaN, not a rounded rational amount, so the claimed
per-shareholder formula fails without the extra premise that the share
total is positive. -/
theorem payAll_zeroShares_counterexample :
    (payAll dbZeroShares "June" 100 0 none).1 = PayAllResult.ok 1 ∧
    (payAll dbZeroShares "June" 100 0 none).2.map (fun r => r.gross_amount) =
      [JNum.nan] ∧
    ∀ q : ℚ, JNum.nan ≠ JNum.num q := by
  refine ⟨by decide, by decide, ?_⟩
  intro q h
  exact JNum.noConfusion h

/-- Witness: the 1, 3, 6 share split of a 100 pool at gst 0 pays exactly
10.00, 30.00 and 60.00 to the three approved shareholders. -/
theorem payAll_proportional_correct_witness :
    ("June" : String) ≠ "" ∧ (0 : ℚ) < 100 ∧
    0 < totalSharesOf (dbShares136.filter (fun sh => sh.status == "APPROVED")) ∧
    (payAll dbShares136 "June" 100 0 none).1 = PayAllResult.ok 3 ∧
    (payAll dbShares136 "June" 100 0 none).2.map (fun r => r.gross_amount) =
      [JNum.num 10, JNum.num 30, JNum.num 60] := by
  have h := payAll_proportional_correct dbShares136 "June" 100 0 none (by decide)
    (by norm_num) (by decide)
  have r10 : round2 (10 : ℚ) = 10 := by
    have h1 := round2_cents 1000
    norm_num at h1
    exact h1
  have r30 : round2 (30 : ℚ) = 30 := by
    have h1 := round2_cents 3000
    norm_num at h1
    exact h1
  have r60 : round2 (60 : ℚ) = 60 := by
    have h1 := round2_cents 6000
    norm_num at h1
    exact h1
  refine ⟨by decide, by norm_num, by decide, ?_, ?_⟩
  · rw [h.2.1]
    decide
  · rw [h.2.2.2.1]
    have ht : totalSharesOf (dbShares136.filter (fun sh => sh.status == "APPROVED")) = 10 := by
      decide
    rw [ht]
    have hfil : dbShares136.filter (fun sh => sh.status == "APPROVED") = dbShares136 := by
      decide
    rw [hfil]
    simp only [dbShares136, List.map_cons, List.map_nil]
    norm_num [r10, r30, r60]

/-- Counterexample to C2 as stated: on a zero share total the single
gross written is NaN, so the list of grosses is not a list of rational
numbers at all and no drift bound can hold for it. -/
theorem payAll_drift_counterexample :
    (payAll dbZeroShares "July" 50 18 none).2.map (fun r => r.gross_amount) =
      [JNum.nan] ∧
    ∀ g : List ℚ,
      (payAll dbZeroShares "July" 50 18 none).2.map (fun r => r.gross_amount) ≠
        g.map JNum.num := by
  have h1 : (payAll dbZeroShares "July" 50 18 none).2.map (fun r => r.gross_amount) =
      [JNum.nan] := by decide
  refine ⟨h1, ?_⟩
  intro g h
  rw [h1] at h
  cases g with
  | nil => simp at h
  | cons a t => simp at h

/-- Witness: the equal split of a 100 pool over three one-share holders
pays 33.33 each, summing to 99.99, inside the claimed drift bound but
short of 100.00 because the remainder is not redistributed. -/
theorem payAll_drift_bound_witness :
    ("June" : String) ≠ "" ∧ (0 : ℚ) < 100 ∧
    0 < totalSharesOf (dbShares111.filter (fun sh => sh.status == "APPROVED")) ∧
    (∃ g : List ℚ,
      (payAll dbShares111 "June" 100 0 none).2.map (fun r => r.gross_amount) =
        g.map JNum.num ∧
      |g.sum - 100| ≤
        (((dbShares111.filter (fun sh => sh.status == "APPROVED")).length : ℚ)) * (1/100)) ∧
    (payAll dbShares111 "June" 100 0 none).2.map (fun r => r.gross_amount) =
      [JNum.num (3333/100), JNum.num (3333/100), JNum.num (3333/100)] ∧
    ((3333 : ℚ)/100 + 3333/100 + 3333/100 = 9999/100) ∧ ((9999 : ℚ)/100 ≠ 100) := by
  have hdrift := payAll_drift_bound dbShares111 "June" 100 0 none (by decide)
    (by norm_num) (by decide)
  have hpa := payAll_eq dbShares111 "June" 100 0 none (by decide) (by norm_num)
    (by decide)
  have r33 : round2 (100/3 : ℚ) = 3333/100 := by
    unfold round2
    rw [jsRound_eq_of (100/3*100) 3333 (by norm_num) (by norm_num)]
    norm_num
  refine ⟨by decide, by norm_num, by decide, hdrift, ?_, by norm_num, by norm_num⟩
  rw [hpa]
  simp only [List.map_map]
  have ht : totalSharesOf (dbShares111.filter (fun sh => sh.status == "APPROVED")) = 3 := by
    decide
  rw [ht]
  have hfil : dbShares111.filter (fun sh => sh.status == "APPROVED") = dbShares111 := by
    decide
  rw [hfil]
  simp only [dbShares111, List.map_cons, List.map_nil, Function.comp_apply]
  rw [payAllRecord_gross _ _ _ _ _ _ (by norm_num : (3:ℤ) ≠ 0),
    payAllRecord_gross _ _ _ _ _ _ (by norm_num : (3:ℤ) ≠ 0),
    payAllRecord_gross _ _ _ _ _ _ (by norm_num : (3:ℤ) ≠ 0)]
  norm_num [r33]

/-- Witness: the fresh-database scenario, a single approved zero-share
row, a positive pool: C10 applies and the bulk payout reports success
for one shareholder. -/
theorem payAll_zero_totalShares_nan_witness :
    ("August" : String) ≠ "" ∧ (0 : ℚ) < 75 ∧
    dbZeroShares.filter (fun sh => sh.status == "APPROVED") ≠ [] ∧
    (∀ sh ∈ dbZeroShares.filter (fun sh => sh.status == "APPROVED"),
      sh.num_shares = 0) ∧
    totalSharesOf (dbZeroShares.filter (fun sh => sh.status == "APPROVED")) = 0 ∧
    (payAll dbZeroShares "August" 75 5 none).1 = PayAllResult.ok 1 := by
  have h := payAll_zero_totalShares_nan dbZeroShares "August" 75 5 none (by decide)
    (by norm_num) (by decide) (by decide)
  refine ⟨by decide, by norm_num, by decide, by decide, h.1, ?_⟩
  rw [h.2.1]
  decide
/-- C3 (amended): for a valid single payout the returned values follow
the clamped gst, the half-up rounded gstAmt and net, exactly one PAID
dividend row carrying these amounts is appended, net never exceeds gross
when gross is a whole number of cents, and every precondition violation
yields a declined result rather than a thrown fault. -/
theorem payOne_correct (db : List Shareholder) (shId : Nat) (month : String)
    (amount gstRate : ℚ) (pm : Option String) (sh : Shareholder)
    (hid : shId ≠ 0) (hm : month ≠ "") (ha : 0 < amount)
    (hfind : db.find? (fun s => s.id == shId && s.status == "APPROVED") = some sh) :
    payOne db shId month amount gstRate pm =
      (PayOneResult.ok (round2 (amount - round2 (amount * max 0 gstRate / 100)))
        amount (round2 (amount * max 0 gstRate / 100)),
       [{ shareholder_id := shId, month := month,
          gross_amount := JNum.num amount, gst_rate := max 0 gstRate,
          amount := JNum.num (round2 (amount - round2 (amount * max 0 gstRate / 100))),
          payment_method := jsOrStr pm ("Bank Transfer"), status := "PAID" }]) ∧
    (∀ k : ℤ, amount = (k : ℚ) / 100 →
      round2 (amount - round2 (amount * max 0 gstRate / 100)) ≤ amount) ∧
    (∀ (db2 : List Shareholder) (i : Nat) (m2 : String) (a2 g2 : ℚ)
        (pm2 : Option String),
      (i = 0 ∨ m2 = "" ∨ a2 ≤ 0 ∨
        db2.find? (fun s => s.id == i && s.status == "APPROVED") = none) →
      ∃ msg, payOne db2 i m2 a2 g2 pm2 = (PayOneResult.decline msg, [])) := by
  refine ⟨?_, ?_, ?_⟩
  · unfold payOne
    rw [if_neg, hfind]
    push_neg
    exact ⟨hid, hm, ha⟩
  · intro k hk
    have hg0 : (0 : ℚ) ≤ max 0 gstRate := le_max_left 0 gstRate
    have hm0 : 0 ≤ jsRound (amount * max 0 gstRate / 100 * 100) := by
      unfold jsRound
      rw [Int.le_floor]
      push_cast
      nlinarith [ha, hg0]
    set m := jsRound (amount * max 0 gstRate / 100 * 100) with hmdef
    have hA : round2 (amount * max 0 gstRate / 100) = (m : ℚ) / 100 := by
      unfold round2
      rw [← hmdef]
    rw [hA, hk]
    have hsub : ((k : ℚ) / 100 - (m : ℚ) / 100) = (((k - m : ℤ) : ℚ)) / 100 := by
      push_cast
      ring
    rw [hsub, round2_cents]
    have hmq : (0 : ℚ) ≤ (m : ℚ) := by
      exact_mod_cast hm0
    push_cast
    linarith
  · intro db2 i m2 a2 g2 pm2 hvio
    unfold payOne
    by_cases hc : i = 0 ∨ m2 = "" ∨ a2 ≤ 0
    · rw [if_pos hc]
      exact ⟨_, rfl⟩
    · rw [if_neg hc]
      push_neg at hc
      rcases hvio with h1 | h2 | h3 | h4
      · exact absurd h1 hc.1
      · exact absurd h2 hc.2.1
      · exact absurd h3 (not_le.mpr hc.2.2)
      · rw [h4]
        exact ⟨_, rfl⟩
/-- Counterexample to C3 as stated: a gross of 0.006 at gst rate 0 is
accepted, and the half-up rounding of the net lifts it to 0.01, so the
returned net strictly exceeds the gross. -/
theorem payOne_net_exceeds_gross_counterexample :
    (payOne [baseSh] 1 "June" (3/500) 0 none).1 =
      PayOneResult.ok (1/100) (3/500) 0 ∧
    ¬ ((1 : ℚ)/100 ≤ 3/500) := by
  have h := payOne_correct [baseSh] 1 "June" (3/500) 0 none baseSh (by decide)
    (by decide) (by norm_num) (by decide)
  have hg : round2 ((3 : ℚ)/500 * max 0 0 / 100) = 0 := by
    rw [show ((3 : ℚ)/500 * max 0 0 / 100) = 0 by norm_num]
    unfold round2
    rw [show ((0 : ℚ) * 100) = 0 by norm_num,
      jsRound_eq_of 0 0 (by norm_num) (by norm_num)]
    norm_num
  have hn : round2 ((3 : ℚ)/500 - 0) = 1/100 := by
    unfold round2
    rw [show (((3 : ℚ)/500 - 0) * 100) = 3/5 by norm_num,
      jsRound_eq_of (3/5) 1 (by norm_num) (by norm_num)]
    norm_num
  constructor
  · rw [h.1]
    rw [hg, hn]
  · norm_num

/-- Witness: a 100.00 payout at gst 18 yields gstAmt 18.00, net 82.00,
one matching PAID row, and net at most gross. -/
theorem payOne_correct_witness :
    (1 : Nat) ≠ 0 ∧ ("Jan" : String) ≠ "" ∧ (0 : ℚ) < 100 ∧
    [baseSh].find? (fun s => s.id == 1 && s.status == "APPROVED") = some baseSh ∧
    (payOne [baseSh] 1 "Jan" 100 18 none).1 = PayOneResult.ok 82 100 18 ∧
    round2 (100 - round2 ((100 : ℚ) * max 0 18 / 100)) ≤ 100 := by
  have h := payOne_correct [baseSh] 1 "Jan" 100 18 none baseSh (by decide)
    (by decide) (by norm_num) (by decide)
  have h18 : round2 ((100 : ℚ) * max 0 18 / 100) = 18 := by
    rw [show ((100 : ℚ) * max 0 18 / 100) = ((1800 : ℤ) : ℚ) / 100 by norm_num]
    rw [round2_cents]
    norm_num
  have h82 : round2 ((100 : ℚ) - 18) = 82 := by
    rw [show ((100 : ℚ) - 18) = ((8200 : ℤ) : ℚ) / 100 by norm_num]
    rw [round2_cents]
    norm_num
  have hnet := h.2.1 10000 (by norm_num)
  refine ⟨by decide, by decide, by norm_num, by decide, ?_, hnet⟩
  rw [h.1]
  rw [h18, h82]
/-- C4: getRunningStage returns the unique RUNNING stage row when one
exists; when none exists it returns exactly the hard-coded fallback
object with stage 2, price 1200 and name Current Price, it never fails
(it is total), and the fallback price is the price the registration
route then uses. -/
theorem getRunningStage_correct (stages : List Stage) (st : Stage) :
    (stages.filter (fun s => s.status == "RUNNING") = [st] →
      getRunningStage stages = RunningStage.row st) ∧
    (stages.filter (fun s => s.status == "RUNNING") = [] →
      getRunningStage stages = RunningStage.fallback 2 1200 ("Current Price") ∧
      registrationPrice stages = 1200) := by
  constructor
  · intro h
    unfold getRunningStage
    rw [h]
    rfl
  · intro h
    unfold registrationPrice getRunningStage
    rw [h]
    exact ⟨rfl, rfl⟩

/-- Witness: on the seeded stage table the RUNNING row is returned; with
stage 2 set SOLD_OUT the fallback object is returned and registration
prices at 1200. -/
theorem getRunningStage_correct_witness :
    seededStages.filter (fun s => s.status == "RUNNING") = [runningStageRow] ∧
    getRunningStage seededStages = RunningStage.row runningStageRow ∧
    noRunningStages.filter (fun s => s.status == "RUNNING") = [] ∧
    getRunningStage noRunningStages = RunningStage.fallback 2 1200 ("Current Price") ∧
    registrationPrice noRunningStages = 1200 := by
  have h1 := (getRunningStage_correct seededStages runningStageRow).1 (by decide)
  have h2 := (getRunningStage_correct noRunningStages runningStageRow).2 (by decide)
  exact ⟨by decide, h1, by decide, h2.1, h2.2⟩

/-- C5: the admin status update sets approved_at to the current time
exactly when the incoming status is APPROVED and to null for every other
incoming status, computes it from the target status alone, and changes
no shareholder field other than status and approved_at; rows with other
ids are untouched. -/
theorem updateAgreementStatus_correct (db : List Shareholder) (id : Nat)
    (st now : String) :
    List.Forall₂ (fun sh sh2 =>
      (sh.id = id →
        sh2.status = st ∧
        sh2.approved_at = (if st = "APPROVED" then some now else none) ∧
        sh2.id = sh.id ∧ sh2.full_name = sh.full_name ∧
        sh2.father_name = sh.father_name ∧ sh2.address = sh.address ∧
        sh2.pin_code = sh.pin_code ∧ sh2.phone = sh.phone ∧
        sh2.email = sh.email ∧ sh2.business_role = sh.business_role ∧
        sh2.num_shares = sh.num_shares ∧ sh2.username = sh.username ∧
        sh2.password_hash = sh.password_hash ∧ sh2.photo_data = sh.photo_data ∧
        sh2.signature_data = sh.signature_data ∧
        sh2.total_investment = sh.total_investment ∧
        sh2.price_per_share = sh.price_per_share ∧ sh2.stage = sh.stage ∧
        sh2.created_at = sh.created_at) ∧
      (sh.id ≠ id → sh2 = sh))
      db (updateAgreementStatus db id st now) := by
  unfold updateAgreementStatus
  rw [List.forall₂_map_right_iff, List.forall₂_same]
  intro sh _
  unfold updateRow
  by_cases h : sh.id = id
  · rw [if_pos h]
    exact ⟨fun _ => ⟨rfl, rfl, rfl, rfl, rfl, rfl, rfl, rfl, rfl, rfl, rfl, rfl,
      rfl, rfl, rfl, rfl, rfl, rfl, rfl⟩, fun hne => absurd h hne⟩
  · rw [if_neg h]
    exact ⟨fun he => absurd he h, fun _ => rfl⟩

/-- Witness: approving a PENDING shareholder stamps approved_at; moving
the approved row back to PENDING clears it to null. -/
theorem updateAgreementStatus_correct_witness :
    (updateAgreementStatus [pendingUser] 8 "APPROVED" "2026-02-03").map
      (fun sh => (sh.status, sh.approved_at)) =
      [("APPROVED", some "2026-02-03")] ∧
    (updateAgreementStatus
        [{ pendingUser with status := "APPROVED", approved_at := some "old" }]
        8 "PENDING" "2026-02-03").map
      (fun sh => (sh.status, sh.approved_at)) = [("PENDING", none)] := by
  have h := updateAgreementStatus_correct [pendingUser] 8 "APPROVED" "2026-02-03"
  have he : updateAgreementStatus [pendingUser] 8 "APPROVED" "2026-02-03" =
      [{ pendingUser with status := "APPROVED", approved_at := some "2026-02-03" }] := by
    decide
  rw [he] at h
  rw [List.forall₂_cons] at h
  obtain ⟨hrel, -⟩ := h
  obtain ⟨hst, hap, -⟩ := hrel.1 rfl
  constructor
  · rw [he, List.map_cons, List.map_nil, hst, hap]
    simp
  · decide
/-- C6: a non-ADMIN shareholder with verifying credentials but a status
other than APPROVED receives a business decline whose pending-approval
message differs from the invalid-credentials message; an ADMIN-role
shareholder with verifying credentials authenticates successfully
regardless of status. -/
theorem login_pending_gate (db : List Shareholder)
    (verify : String → String → Bool) (u p : String) (row : Shareholder)
    (hu : u ≠ "") (hp : p ≠ "")
    (hfind : db.find? (fun sh => sh.username == u) = some row)
    (hv : verify p row.password_hash = true) :
    (row.business_role ≠ "ADMIN" → row.status ≠ "APPROVED" →
      login db verify u p =
        LoginResult.declined
          ("Account pending approval. Please wait for admin to approve.") ∧
      ("Account pending approval. Please wait for admin to approve." : String) ≠
        "Invalid credentials.") ∧
    (row.business_role = "ADMIN" →
      login db verify u p =
        LoginResult.ok row.id row.full_name ("ADMIN") row.username) := by
  unfold login
  rw [if_neg (by push_neg; exact ⟨hu, hp⟩), hfind]
  dsimp only
  constructor
  · intro hr hs
    rw [if_neg (by rw [hv]; exact fun hc => hc rfl), if_pos ⟨hr, hs⟩]
    exact ⟨rfl, by decide⟩
  · intro hr
    rw [if_neg (by rw [hv]; exact fun hc => hc rfl),
      if_neg (by rintro ⟨h1, -⟩; exact h1 hr), if_pos hr]

/-- Witness: with equality as the credential check, a PENDING non-admin
with the right password is declined as pending approval, and the
PENDING ADMIN row still logs in successfully. -/
theorem login_pending_gate_witness :
    login [pendingUser] (fun p h => p == h) "u8" "h1" =
      LoginResult.declined
        ("Account pending approval. Please wait for admin to approve.") ∧
    ("Account pending approval. Please wait for admin to approve." : String) ≠
      "Invalid credentials." ∧
    login [adminPending] (fun p h => p == h) "admin" "h1" =
      LoginResult.ok 9 "Administrator" ("ADMIN") "admin" := by
  have h1 := (login_pending_gate [pendingUser] (fun p h => p == h) "u8" "h1"
    pendingUser (by decide) (by decide) (by decide) (by decide)).1
    (by decide) (by decide)
  have h2 := (login_pending_gate [adminPending] (fun p h => p == h) "admin" "h1"
    adminPending (by decide) (by decide) (by decide) (by decide)).2 rfl
  exact ⟨h1.1, h1.2, h2⟩
/-- C7: deleting the ADMIN-role shareholder is always rejected with no
state change; deleting any other existing shareholder removes all of
that shareholder's dividend rows and then the shareholder row, leaves no
dividend row pointing at the deleted id, and preserves the invariant
that every dividend row has an owning shareholder. -/
theorem deleteAgreement_correct (shs : List Shareholder)
    (divs : List DividendRecord) (id : Nat) (sh : Shareholder)
    (hfind : shs.find? (fun s => s.id == id) = some sh) :
    (sh.business_role = "ADMIN" →
      deleteAgreement shs divs id =
        (DeleteResult.forbidden ("Cannot delete admin account"), shs, divs)) ∧
    (sh.business_role ≠ "ADMIN" →
      deleteAgreement shs divs id =
        (DeleteResult.ok ("Agreement for " ++ sh.full_name ++ " deleted"),
         shs.filter (fun s => !(s.id == id)),
         divs.filter (fun d => !(d.shareholder_id == id))) ∧
      (∀ d ∈ divs.filter (fun d => !(d.shareholder_id == id)),
        d.shareholder_id ≠ id) ∧
      ((∀ d ∈ divs, ∃ s ∈ shs, s.id = d.shareholder_id) →
        ∀ d ∈ divs.filter (fun d => !(d.shareholder_id == id)),
          ∃ s ∈ shs.filter (fun s => !(s.id == id)), s.id = d.shareholder_id)) := by
  unfold deleteAgreement
  rw [hfind]
  dsimp only
  constructor
  · intro hr
    rw [if_pos hr]
  · intro hr
    rw [if_neg hr]
    refine ⟨rfl, ?_, ?_⟩
    · intro d hd
      rw [List.mem_filter] at hd
      simpa using hd.2
    · intro hpre d hd
      rw [List.mem_filter] at hd
      have hdid : d.shareholder_id ≠ id := by simpa using hd.2
      obtain ⟨s, hs, hsid⟩ := hpre d hd.1
      refine ⟨s, ?_, hsid⟩
      rw [List.mem_filter]
      refine ⟨hs, ?_⟩
      simp [hsid, hdid]

/-- Witness: deleting shareholder 1 removes its dividend row and its
shareholder row and keeps the rows of shareholder 8; deleting the
ADMIN-role row 9 is forbidden and changes nothing. -/
theorem deleteAgreement_correct_witness :
    deleteAgreement [baseSh, pendingUser] [divA, divB] 1 =
      (DeleteResult.ok ("Agreement for Test Person deleted"),
       [pendingUser], [divB]) ∧
    deleteAgreement [adminPending] [divB] 9 =
      (DeleteResult.forbidden ("Cannot delete admin account"),
       [adminPending], [divB]) := by
  have h1 := (deleteAgreement_correct [baseSh, pendingUser] [divA, divB] 1 baseSh
    (by decide)).2 (by decide)
  have h2 := (deleteAgreement_correct [adminPending] [divB] 9 adminPending
    (by decide)).1 rfl
  refine ⟨?_, h2⟩
  rw [h1.1]
  decide
/-- C8: an empty update field set is rejected with a validation error and
no stage changes; a non-empty partial update succeeds and changes only
the supplied mutable fields of the target stage, leaving its other
fields and every other stage untouched; creation is rejected when the
stage number, name or price is absent. -/
theorem upsertStage_correct (stages : List Stage) (id : Nat) (u : StagePatch)
    (nextId : Nat) (inp : StageCreate) :
    (u.status = none ∧ u.price_per_share = none ∧ u.name = none ∧
        u.shares_available = none →
      updateStage stages id u = (UpsertResult.invalid ("Nothing to update"), stages)) ∧
    (¬ (u.status = none ∧ u.price_per_share = none ∧ u.name = none ∧
        u.shares_available = none) →
      (updateStage stages id u).1 = UpsertResult.ok ("Stage updated") ∧
      List.Forall₂ (fun st st2 =>
        (st.id = id →
          st2.status = u.status.getD st.status ∧
          st2.price_per_share = u.price_per_share.getD st.price_per_share ∧
          st2.name = u.name.getD st.name ∧
          st2.shares_available = u.shares_available.getD st.shares_available ∧
          st2.id = st.id ∧ st2.stage = st.stage ∧
          st2.min_subscribers = st.min_subscribers ∧
          st2.max_subscribers = st.max_subscribers) ∧
        (st.id ≠ id → st2 = st))
        stages (updateStage stages id u).2) ∧
    (inp.stage = none ∨ inp.name = none ∨ inp.price_per_share = none →
      createStage stages nextId inp =
        (UpsertResult.invalid ("stage, name, price_per_share required"), stages)) := by
  refine ⟨?_, ?_, ?_⟩
  · intro h
    unfold updateStage
    rw [if_pos h]
  · intro h
    unfold updateStage
    rw [if_neg h]
    refine ⟨rfl, ?_⟩
    rw [List.forall₂_map_right_iff, List.forall₂_same]
    intro st _
    by_cases hid : st.id = id
    · rw [if_pos hid]
      unfold applyPatch
      exact ⟨fun _ => ⟨rfl, rfl, rfl, rfl, rfl, rfl, rfl, rfl⟩,
        fun hne => absurd hid hne⟩
    · rw [if_neg hid]
      exact ⟨fun he => absurd he hid, fun _ => rfl⟩
  · intro h
    unfold createStage
    rw [if_pos]
    rintro ⟨h1, h2, h3⟩
    rcases h with h4 | h4 | h4
    · rw [h4] at h1
      exact Bool.noConfusion h1
    · rw [h4] at h2
      exact Bool.noConfusion h2
    · rw [h4] at h3
      exact Bool.noConfusion h3

/-- Witness: an empty patch on the seeded table is rejected unchanged; a
price-only patch on row 2 changes just that price and no other row; a
creation request lacking a name is rejected unchanged. -/
theorem upsertStage_correct_witness :
    updateStage seededStages 2
      { status := none, price_per_share := none, name := none,
        shares_available := none } =
      (UpsertResult.invalid ("Nothing to update"), seededStages) ∧
    (updateStage seededStages 2
      { status := none, price_per_share := some 1500, name := none,
        shares_available := none }).2.map
        (fun st => (st.id, st.price_per_share, st.status, st.name)) =
      [(1, (1000 : ℚ), "SOLD_OUT", "Base Price"),
       (2, (1500 : ℚ), "RUNNING", "Current Price"),
       (3, (1440 : ℚ), "UPCOMING", "Next Price")] ∧
    createStage seededStages 4
      { stage := some 4, name := none, price_per_share := some 1700,
        min_subscribers := none, max_subscribers := none, status := none,
        shares_available := none } =
      (UpsertResult.invalid ("stage, name, price_per_share required"),
       seededStages) := by
  have h1 := (upsertStage_correct seededStages 2
    { status := none, price_per_share := none, name := none,
      shares_available := none } 4
    { stage := some 4, name := none, price_per_share := some 1700,
      min_subscribers := none, max_subscribers := none, status := none,
      shares_available := none }).1 (by exact ⟨rfl, rfl, rfl, rfl⟩)
  have h3 := (upsertStage_correct seededStages 2
    { status := none, price_per_share := some 1500, name := none,
      shares_available := none } 4
    { stage := some 4, name := none, price_per_share := some 1700,
      min_subscribers := none, max_subscribers := none, status := none,
      shares_available := none }).2.2 (Or.inr (Or.inl rfl))
  exact ⟨h1, by decide, h3⟩
/-- Unfolded effect of the newPage helper. -/
theorem newPage_spec (s : RSt) :
    (newPage s).pageNum = s.pageNum + 1 ∧ (newPage s).page = s.page + 1 ∧
    (newPage s).cy = BODY_TOP ∧
    (newPage s).log = s.log ++ [Ev.footer s.page s.pageNum,
      Ev.header (s.page + 1), Ev.footer (s.page + 1) (s.pageNum + 1)] := by
  unfold newPage drawFooterOp drawHeaderOp
  refine ⟨rfl, rfl, rfl, ?_⟩
  simp

/-- The invariant is insensitive to the cursor. -/
theorem goodSt_setCy (s : RSt) (v : ℤ) (h : GoodSt s) : GoodSt { s with cy := v } := h

/-- Footer draws preserve the invariant. -/
theorem goodSt_drawFooterOp (s : RSt) (h : GoodSt s) : GoodSt (drawFooterOp s) := by
  obtain ⟨h1, h2, h3, h4⟩ := h
  refine ⟨h1, h2, ?_, ?_⟩
  · intro p n hm
    rw [drawFooterOp] at hm
    simp only [List.mem_append, List.mem_singleton] at hm
    rcases hm with hm | hm
    · exact h3 p n hm
    · injection hm with hp hn
      rw [hp, hn]
      exact h1
  · intro p hp2 hpp
    obtain ⟨hh, hf⟩ := h4 p hp2 hpp
    rw [drawFooterOp]
    exact ⟨List.mem_append_left _ hh, List.mem_append_left _ hf⟩

/-- Header draws preserve the invariant. -/
theorem goodSt_drawHeaderOp (s : RSt) (h : GoodSt s) : GoodSt (drawHeaderOp s) := by
  obtain ⟨h1, h2, h3, h4⟩ := h
  refine ⟨h1, h2, ?_, ?_⟩
  · intro p n hm
    rw [drawHeaderOp] at hm
    simp only [List.mem_append, List.mem_singleton] at hm
    rcases hm with hm | hm
    · exact h3 p n hm
    · cases hm
  · intro p hp2 hpp
    obtain ⟨hh, hf⟩ := h4 p hp2 hpp
    rw [drawHeaderOp]
    exact ⟨List.mem_append_left _ hh, List.mem_append_left _ hf⟩
/-- A page break preserves the invariant and extends it to the new page. -/
theorem goodSt_newPage (s : RSt) (h : GoodSt s) : GoodSt (newPage s) := by
  obtain ⟨hnp, hpp, hcy, hlog⟩ := newPage_spec s
  obtain ⟨h1, h2, h3, h4⟩ := h
  refine ⟨by rw [hnp, hpp, h1], by rw [hpp]; omega, ?_, ?_⟩
  · intro p n hm
    rw [hlog] at hm
    simp only [List.mem_append, List.mem_cons, List.mem_singleton] at hm
    rcases hm with hm | hm | hm | hm
    · exact h3 p n hm
    · injection hm with hp hn
      rw [hp, hn]
      exact h1
    · cases hm
    · rcases hm with hm | hm
      · injection hm with hp hn
        rw [hp, hn, h1]
      · cases hm
  · intro p hp2 hpp'
    rw [hpp] at hpp'
    rw [hlog]
    by_cases hle : p ≤ s.page
    · obtain ⟨hh, hf⟩ := h4 p hp2 hle
      exact ⟨List.mem_append_left _ hh, List.mem_append_left _ hf⟩
    · have hpe : p = s.page + 1 := by omega
      constructor
      · refine List.mem_append_right _ ?_
        rw [hpe]
        simp
      · refine List.mem_append_right _ ?_
        rw [hpe, h1]
        simp
/-- ensureSpace preserves the invariant. -/
theorem goodSt_ensureSpace (needed : ℤ) (s : RSt) (h : GoodSt s) :
    GoodSt (ensureSpace needed s) := by
  unfold ensureSpace
  by_cases hc : BODY_BOT < s.cy + needed
  · rw [if_pos hc]
    exact goodSt_newPage s h
  · rw [if_neg hc]
    exact h

/-- Every renderer step preserves the invariant. -/
theorem goodSt_runStep (s : RSt) (t : Step) (h : GoodSt s) : GoodSt (runStep s t) := by
  cases t with
  | hdr => exact goodSt_drawHeaderOp s h
  | ftr => exact goodSt_drawFooterOp s h
  | raw a => exact goodSt_setCy s _ h
  | blk n a => exact goodSt_setCy _ _ (goodSt_ensureSpace n s h)

/-- Whole step lists preserve the invariant. -/
theorem goodSt_runSteps (steps : List Step) :
    ∀ s : RSt, GoodSt s → GoodSt (runSteps steps s) := by
  induction steps with
  | nil => intro s h; exact h
  | cons t ts ih => intro s h; exact ih _ (goodSt_runStep s t h)

/-- The event log only grows under one step. -/
theorem log_mono_runStep (s : RSt) (t : Step) (e : Ev) (h : e ∈ s.log) :
    e ∈ (runStep s t).log := by
  cases t with
  | hdr => exact List.mem_append_left _ h
  | ftr => exact List.mem_append_left _ h
  | raw a => exact h
  | blk n a =>
    show e ∈ (ensureSpace n s).log
    unfold ensureSpace
    by_cases hc : BODY_BOT < s.cy + n
    · rw [if_pos hc, (newPage_spec s).2.2.2]
      exact List.mem_append_left _ h
    · rw [if_neg hc]
      exact h

/-- The event log only grows under a step list. -/
theorem log_mono_runSteps (steps : List Step) :
    ∀ (s : RSt) (e : Ev), e ∈ s.log → e ∈ (runSteps steps s).log := by
  induction steps with
  | nil => intro s e h; exact h
  | cons t ts ih => intro s e h; exact ih _ e (log_mono_runStep s t e h)

/-- State after the two opening header and footer draws of the document. -/
theorem goodSt_start (rest : List Step) :
    GoodSt (runSteps (Step.hdr :: Step.ftr :: rest) initSt) ∧
    Ev.header 1 ∈ (runSteps (Step.hdr :: Step.ftr :: rest) initSt).log ∧
    Ev.footer 1 1 ∈ (runSteps (Step.hdr :: Step.ftr :: rest) initSt).log := by
  have hred : runSteps (Step.hdr :: Step.ftr :: rest) initSt =
      runSteps rest (runStep (runStep initSt Step.hdr) Step.ftr) := rfl
  have h2 : GoodSt (runStep (runStep initSt Step.hdr) Step.ftr) := by
    refine ⟨rfl, by decide, ?_, ?_⟩
    · intro p n hm
      simp only [runStep, drawHeaderOp, drawFooterOp, initSt, List.mem_append,
        List.mem_singleton, List.mem_cons, List.not_mem_nil, List.nil_append,
        List.cons_append] at hm
      rcases hm with hm | hm | hm
      · cases hm
      · injection hm with hp hn
        rw [hp, hn]
      · cases hm
    · intro p hp2 hpp
      have : p ≤ 1 := hpp
      omega
  rw [hred]
  refine ⟨goodSt_runSteps rest _ h2, ?_, ?_⟩
  · exact log_mono_runSteps rest _ _ (by decide)
  · exact log_mono_runSteps rest _ _ (by decide)
/-- C9: before each measured block the renderer checks the estimated
height against the body-bottom limit and on overflow flushes the footer,
increments the page counter by exactly one, redraws header and footer
and resets the cursor to the top-of-body offset; in every full agreement
render the pageNum counter equals the physical page, every footer shows
the number of the page it is on, and every page reached carries a header
and a correctly numbered footer; a shareholder with a 300-character
address renders to more than one page. -/
theorem renderer_pagination_correct (personal invVals : List String)
    (hasPhoto : Bool) (flowH : ℕ → ℤ) :
    (∀ (s : RSt) (needed : ℤ),
      (BODY_BOT < s.cy + needed → ensureSpace needed s = newPage s) ∧
      (¬ BODY_BOT < s.cy + needed → ensureSpace needed s = s)) ∧
    (∀ s : RSt,
      (newPage s).pageNum = s.pageNum + 1 ∧ (newPage s).page = s.page + 1 ∧
      (newPage s).cy = BODY_TOP ∧
      (newPage s).log = s.log ++ [Ev.footer s.page s.pageNum,
        Ev.header (s.page + 1), Ev.footer (s.page + 1) (s.pageNum + 1)]) ∧
    (agreementRender personal invVals hasPhoto flowH).pageNum =
      (agreementRender personal invVals hasPhoto flowH).page ∧
    (∀ p n, Ev.footer p n ∈ (agreementRender personal invVals hasPhoto flowH).log →
      n = p) ∧
    (∀ p, 1 ≤ p → p ≤ (agreementRender personal invVals hasPhoto flowH).page →
      Ev.header p ∈ (agreementRender personal invVals hasPhoto flowH).log ∧
      Ev.footer p p ∈ (agreementRender personal invVals hasPhoto flowH).log) ∧
    1 < (agreementRender (personalFieldValues sh300) invVals6 false stdFlowH).page := by
  obtain ⟨hg, hh1, hf1⟩ := goodSt_start
    ([Step.raw 32, Step.raw (if hasPhoto then 108 else 6), sectionStep]
      ++ personal.map fieldStep
      ++ [sectionStep] ++ invVals.map fieldStep
      ++ [sectionStep, Step.raw 4]
      ++ termLens.map (termStep flowH)
      ++ [sectionStep, Step.raw 4, Step.blk 52 (flowH declLen + 8),
          Step.blk 22 26, Step.blk 110 0, sectionStep, Step.raw 6, Step.raw 100,
          Step.blk 16 14, Step.ftr])
  have hge : GoodSt (agreementRender personal invVals hasPhoto flowH) := hg
  have hh1e : Ev.header 1 ∈ (agreementRender personal invVals hasPhoto flowH).log := hh1
  have hf1e : Ev.footer 1 1 ∈ (agreementRender personal invVals hasPhoto flowH).log := hf1
  obtain ⟨g1, g2, g3, g4⟩ := hge
  refine ⟨?_, newPage_spec, g1, g3, ?_, by decide⟩
  · intro s needed
    constructor
    · intro hlt
      unfold ensureSpace
      rw [if_pos hlt]
    · intro hge2
      unfold ensureSpace
      rw [if_neg hge2]
  · intro p hp1 hpp
    by_cases hp : p = 1
    · rw [hp]
      exact ⟨hh1e, hf1e⟩
    · exact g4 p (by omega) hpp

/-- Witness: the concrete long-address render spans more than one page
with the page counter in agreement with the physical page. -/
theorem renderer_pagination_correct_witness :
    1 < (agreementRender (personalFieldValues sh300) invVals6 false stdFlowH).page ∧
    (agreementRender (personalFieldValues sh300) invVals6 false stdFlowH).pageNum =
      (agreementRender (personalFieldValues sh300) invVals6 false stdFlowH).page := by
  have h := renderer_pagination_correct (personalFieldValues sh300) invVals6 false
    stdFlowH
  exact ⟨h.2.2.2.2.2, h.2.2.1⟩
